import Mathlib

/-!
Verification of the scoping-bot frontend export workflow.

This file shallowly embeds the client-side export/preview/finalize workflow of
the scoping-bot repository: the JSON draft-scope data model, the Exports page
table editor and its write-back (`updateParsedDraft`), the resourcing-plan
totals row, the PDF preview cache, the download manager (`downloadFile`,
`handleDownloadAll`), the export API helpers (`safeFileName`,
`fetchExportBlob`), and the ProjectContext / ExportContext operations
(`createProject`, `regenerateScope`, `finalizeScope`, `getFinalizedScope`).

JavaScript values held in a draft scope are modelled by the inductive `Json`;
machine doubles are modelled by exact fractions (`JNum`; the drafts the claims
quantify over hold small integers, for which this is exact).  JavaScript
`undefined` arising from a missing object key is modelled as `Json.null` where
noted.  Fallible operations (network calls, JSON parsing) return
`Option`/`Except`.
-/

namespace ScopingBot

/-- A JS number, as an exact fraction `num / den` with `den` positive by
construction.  The drafts the claims quantify over hold small integers, for
which this models IEEE doubles exactly.  All operations are plain `Int`/`Nat`
arithmetic so that every modelled computation evaluates inside the kernel. -/
structure JNum where
  num : ℤ
  den : ℕ
deriving DecidableEq

/-- The integer `n` as a JS number. -/
def jnOfInt (n : ℤ) : JNum := ⟨n, 1⟩

/-- Exact addition; representatives are not reduced (doubles carry no
representative either — value equality is `jnBEq`). -/
def jnAdd (a b : JNum) : JNum :=
  ⟨a.num * b.den + b.num * a.den, a.den * b.den⟩

/-- Exact multiplication. -/
def jnMul (a b : JNum) : JNum := ⟨a.num * b.num, a.den * b.den⟩

/-- Negation. -/
def jnNeg (a : JNum) : JNum := ⟨-a.num, a.den⟩

/-- Numeric equality `===` of two JS numbers: cross-multiplied comparison,
independent of the representative. -/
def jnBEq (a b : JNum) : Bool := a.num * b.den == b.num * a.den

/-- The rational value of a `JNum` (specification-level only). -/
def jnVal (a : JNum) : ℚ := (a.num : ℚ) / (a.den : ℚ)

/-- Euclid's algorithm with explicit fuel, so that it evaluates inside the
kernel; `myGcd` supplies enough fuel for any input. -/
def gcdFuel : ℕ → ℕ → ℕ → ℕ
  | 0, a, _ => a
  | f + 1, a, b => if b = 0 then a else gcdFuel f b (a % b)

/-- Greatest common divisor via `gcdFuel`. -/
def myGcd (a b : ℕ) : ℕ := gcdFuel (b + 1) a b

/-- Reduce a fraction to lowest terms (used where JS collapses a value to its
canonical number, e.g. `Number((3).toFixed(2)) === 3`). -/
def jnReduce (a : JNum) : JNum :=
  let g := myGcd a.num.natAbs a.den
  if g = 0 then a else ⟨a.num / (g : ℤ), a.den / g⟩

/-- A JavaScript/JSON value as held in a draft scope.  Object fields keep
insertion order, matching JS object semantics. -/
inductive Json where
  | null : Json
  | bool (b : Bool) : Json
  | num (q : JNum) : Json
  | str (s : String) : Json
  | arr (elems : List Json) : Json
  | obj (fields : List (String × Json)) : Json

/-- JS strict equality `===` restricted to the scalar values it is applied to
in this codebase (project ids); object/array operands would compare by
reference, which a value model cannot express and no modelled call site
needs. -/
def jsStrictEq (a b : Json) : Bool :=
  match a, b with
  | .null, .null => true
  | .bool x, .bool y => x == y
  | .num x, .num y => jnBEq x y
  | .str x, .str y => x == y
  | _, _ => false

/-- JS truthiness of a value (`if (v)`).  `NaN` cannot occur inside a parsed
draft, so numbers are falsy exactly when zero. -/
def jsTruthy : Json → Bool
  | .null => false
  | .bool b => b
  | .num q => q.num != 0
  | .str s => s != ""
  | .arr _ => true
  | .obj _ => true

/-- JS `a || b` on draft values. -/
def jsOr (a b : Json) : Json := if jsTruthy a then a else b

/-- Field lookup `r[k]` on an object; JS yields `undefined` for a missing key
or a non-object receiver, modelled as `Json.null` (the drafts the claims
evaluate never branch on the undefined/null distinction). -/
def objGet (r : Json) (k : String) : Json :=
  match r with
  | .obj fs => (((fs.find? (fun p => p.1 == k)).map Prod.snd).getD .null)
  | _ => .null

/-- JS object property write `o[k] = v`: an existing key keeps its position
and receives the new value, a fresh key is appended at the end. -/
def objInsert (o : List (String × Json)) (k : String) (v : Json) :
    List (String × Json) :=
  match o with
  | [] => [(k, v)]
  | (k0, v0) :: t => if k0 = k then (k0, v) :: t else (k0, v0) :: objInsert t k v

/-- JS object spread `\x7b ...a, ...b \x7d` for two objects: the fields of `b`
are written over those of `a` in order. -/
def objMerge (a b : Json) : Json :=
  match a, b with
  | .obj fa, .obj fb => .obj (fb.foldl (fun acc p => objInsert acc p.1 p.2) fa)
  | _, _ => b

/-- Digit run of a character list. -/
def takeDigits (cs : List Char) : List Char × List Char :=
  (cs.takeWhile Char.isDigit, cs.dropWhile Char.isDigit)

/-- Natural value of a digit run. -/
def digitsVal (ds : List Char) : ℕ :=
  ds.foldl (fun a c => a * 10 + (c.toNat - 48)) 0

/-- Longest unsigned decimal prefix `digits [. digits]` of a character list,
with the unconsumed rest.  `d₁…dₙ.f₁…f_k` denotes `(d·10^k + f) / 10^k`.
Exponents and hex forms are not modelled: the drafts quantified over contain
plain decimal numerals only. -/
def parseUnsignedDec (cs : List Char) : Option (JNum × List Char) :=
  let ip := takeDigits cs
  match ip.2 with
  | '.' :: r2 =>
      let fp := takeDigits r2
      if ip.1.isEmpty ∧ fp.1.isEmpty then none
      else
        some (⟨(digitsVal ip.1 * 10 ^ fp.1.length + digitsVal fp.1 : ℕ),
                10 ^ fp.1.length⟩, fp.2)
  | _ => if ip.1.isEmpty then none else some (jnOfInt (digitsVal ip.1), ip.2)

/-- JS whitespace test (space, tab, newline, carriage return). -/
def isJsWs (c : Char) : Bool :=
  c == ' ' || c == '\t' || c == '\n' || c == '\r'

/-- Signed decimal prefix, used by both `parseFloat` and `Number`. -/
def parseSignedDec (cs : List Char) : Option (JNum × List Char) :=
  match cs with
  | '-' :: r => (parseUnsignedDec r).map (fun p => (jnNeg p.1, p.2))
  | '+' :: r => parseUnsignedDec r
  | _ => parseUnsignedDec cs

/-- JS `parseFloat` on a string: skip leading whitespace, read the longest
signed decimal prefix, ignore the rest; `none` models `NaN`. -/
def parseFloatStr (s : String) : Option JNum :=
  (parseSignedDec (s.data.dropWhile isJsWs)).map Prod.fst

/-- JS `parseFloat` applied to a draft cell.  A number passes through; a
string is prefix-parsed.  `parseFloat(String(v))` for booleans, `null` and
containers yields `NaN` for every value arising in the modelled drafts, so
those cases return `none`. -/
def parseFloatJs (v : Json) : Option JNum :=
  match v with
  | .num q => some q
  | .str s => parseFloatStr s
  | _ => none

/-- JS `Number` coercion of a string: trimmed empty string is `0`; otherwise
the whole string must be a signed decimal numeral, else `NaN` (`none`). -/
def jsStringToNumber (s : String) : Option JNum :=
  let t := (s.data.dropWhile isJsWs).reverse.dropWhile isJsWs |>.reverse
  if t.isEmpty then some (jnOfInt 0)
  else
    match parseSignedDec t with
    | some (q, rest) => if rest.isEmpty then some q else none
    | none => none

/-- JS `Number(v)` on a draft cell; `none` models `NaN`.  Array/object
coercion (via `toString`) is not modelled: the cells this is applied to are
scalars. -/
def jsNumber (v : Json) : Option JNum :=
  match v with
  | .null => some (jnOfInt 0)
  | .bool b => some (jnOfInt (if b then 1 else 0))
  | .num q => some q
  | .str s => jsStringToNumber s
  | _ => none

/-- NaN-propagating addition (`none` is `NaN`). -/
def jnAddNaN (a b : Option JNum) : Option JNum :=
  match a, b with
  | some x, some y => some (jnAdd x y)
  | _, _ => none

/-- NaN-propagating multiplication (`none` is `NaN`). -/
def jnMulNaN (a b : Option JNum) : Option JNum :=
  match a, b with
  | some x, some y => some (jnMul x y)
  | _, _ => none

/-- Insert thousands separators into a digit string (en-US grouping). -/
def groupDigitsAux : List Char → List Char
  | a :: b :: c :: d :: rest => a :: b :: c :: ',' :: groupDigitsAux (d :: rest)
  | l => l

/-- `"1234567"` becomes `"1,234,567"`. -/
def groupDigits (s : String) : String :=
  String.mk ((groupDigitsAux s.data.reverse).reverse)

/-- Two-digit rendering of a cent remainder. -/
def twoDigits (n : ℕ) : String :=
  (if n < 10 then "0" else "") ++ toString n

/-- Rounding of `|q| * 100` to the nearest integer, ties away from zero:
`⌊(|n|·200 + d) / (2·d)⌋` for `q = n / d`. -/
def centsOf (q : JNum) : ℕ :=
  (q.num.natAbs * 200 + q.den) / (2 * q.den)

/-- `toLocaleString("en-US", \x7bstyle: "currency", currency: "USD",
minimumFractionDigits: 2\x7d)` for a number: round to cents (half away from
zero, the Intl default), group the dollars, prefix the sign and `$`. -/
def currencyUSD (q : JNum) : String :=
  let sign := if q.num < 0 then "-" else ""
  let cents := centsOf q
  let whole := cents / 100
  let frac := cents % 100
  sign ++ "$" ++ groupDigits (toString whole) ++ "." ++ twoDigits frac

/-- `formatCurrency` from the Exports page: empty/null cells render empty,
non-numeric cells pass through unchanged, numeric cells render as en-US USD. -/
def formatCurrency (v : Json) : Json :=
  match v with
  | .null => .str ""
  | .str "" => .str ""
  | _ =>
    match jsNumber v with
    | none => v
    | some n => .str (currencyUSD n)

/-- Lowercase an ASCII character (the headers and content types this is
applied to are ASCII). -/
def charLower (c : Char) : Char :=
  if 'A' ≤ c ∧ c ≤ 'Z' then Char.ofNat (c.toNat + 32) else c

/-- JS `s.toLowerCase()` for ASCII strings. -/
def strLower (s : String) : String := String.mk (s.data.map charLower)

/-- `name.replace(/\s+/g, "_")` on a character list: each maximal whitespace
run becomes one underscore.  The flag records whether the previous character
was whitespace. -/
def collapseWsAux : Bool → List Char → List Char
  | _, [] => []
  | prevWs, c :: rest =>
      if isJsWs c then
        if prevWs then collapseWsAux true rest
        else '_' :: collapseWsAux true rest
      else c :: collapseWsAux false rest

/-- `safeFileName` from `exportApi`: collapse each whitespace run to a single
underscore, lowercase, then append the extension. -/
def safeFileName (name : String) (ext : String) : String :=
  strLower (String.mk (collapseWsAux false name.data)) ++ "." ++ ext

/-- Escape of one character inside a JSON string literal. -/
def escChar (c : Char) : String :=
  if c = '"' then "\\\""
  else if c = '\\' then "\\\\"
  else if c = '\n' then "\\n"
  else if c = '\t' then "\\t"
  else if c = '\r' then "\\r"
  else String.mk [c]

/-- Minimal JSON string quoting.  The drafts the claims evaluate contain no
characters needing escapes beyond these. -/
def quoteJsonString (s : String) : String :=
  "\"" ++ String.join (s.data.map escChar) ++ "\""

/-- Rendering of a draft number.  JS prints doubles in shortest round-trip
decimal form; the drafts quantified over hold integers, where this agrees
(after reducing the representative).  Non-integral values print as
`num/den` — never produced by the modelled drafts, and used only where
value-injectivity, not the exact text, matters (the PDF cache key). -/
def qToString (q : JNum) : String :=
  let r := jnReduce q
  if r.den = 1 then toString r.num
  else toString r.num ++ "/" ++ toString r.den

mutual

/-- Structural size of a value, used as recursion fuel by the serializers. -/
def jsonSize : Json → Nat
  | .null => 1
  | .bool _ => 1
  | .num _ => 1
  | .str _ => 1
  | .arr xs => 1 + jsonSizeList xs
  | .obj fs => 1 + jsonSizeFields fs

/-- Size of an array's elements. -/
def jsonSizeList : List Json → Nat
  | [] => 0
  | x :: t => jsonSize x + jsonSizeList t + 1

/-- Size of an object's fields. -/
def jsonSizeFields : List (String × Json) → Nat
  | [] => 0
  | p :: t => jsonSize p.2 + jsonSizeFields t + 1

end

/-- `JSON.stringify(v)` (no indent), with explicit recursion fuel.  The
wrapper passes `jsonSize v`, which always suffices, so the fuel-exhausted
branch is unreachable on actual calls. -/
def stringifyFuel : Nat → Json → String
  | 0, _ => ""
  | f + 1, j =>
    match j with
    | .null => "null"
    | .bool b => cond b "true" "false"
    | .num q => qToString q
    | .str s => quoteJsonString s
    | .arr xs =>
        "[" ++ String.intercalate "," (xs.map (stringifyFuel f)) ++ "]"
    | .obj fs =>
        "\x7b" ++
          String.intercalate ","
            (fs.map (fun p => quoteJsonString p.1 ++ ":" ++ stringifyFuel f p.2)) ++
          "\x7d"

/-- `JSON.stringify(v)` — the PDF-preview cache key. -/
def Json.stringify (j : Json) : String := stringifyFuel (jsonSize j) j

/-- A run of `n` spaces. -/
def indentStr (n : Nat) : String := String.mk (List.replicate n ' ')

/-- `JSON.stringify(v, null, 2)` at nesting level `lvl`, with recursion fuel
as in `stringifyFuel`. -/
def stringifyIndFuel : Nat → Nat → Json → String
  | 0, _, _ => ""
  | f + 1, lvl, j =>
    match j with
    | .null => "null"
    | .bool b => cond b "true" "false"
    | .num q => qToString q
    | .str s => quoteJsonString s
    | .arr [] => "[]"
    | .arr xs =>
        "[\n" ++
          String.intercalate ",\n"
            (xs.map (fun x => indentStr (2 * (lvl + 1)) ++ stringifyIndFuel f (lvl + 1) x)) ++
          "\n" ++ indentStr (2 * lvl) ++ "]"
    | .obj [] => "\x7b\x7d"
    | .obj fs =>
        "\x7b\n" ++
          String.intercalate ",\n"
            (fs.map (fun p =>
              indentStr (2 * (lvl + 1)) ++ quoteJsonString p.1 ++ ": " ++
                stringifyIndFuel f (lvl + 1) p.2)) ++
          "\n" ++ indentStr (2 * lvl) ++ "\x7d"

/-- `JSON.stringify(v, null, 2)` — how the Exports page serializes a draft
back into the editor text. -/
def pageStringify (j : Json) : String := stringifyIndFuel (jsonSize j) 0 j

/-- Skip JSON whitespace. -/
def skipWs (cs : List Char) : List Char := cs.dropWhile isJsWs

/-- Body of a JSON string literal after the opening quote: characters up to
the closing quote.  Escape sequences are not modelled (no modelled draft
contains them); a backslash makes the parse fail. -/
def parseStringBody : List Char → Option (String × List Char)
  | [] => none
  | c :: rest =>
      if c = '"' then some ("", rest)
      else if c = '\\' then none
      else (parseStringBody rest).map (fun p => (String.mk [c] ++ p.1, p.2))

mutual

/-- Recursive-descent `JSON.parse` on the character list, fuel-indexed.  The
grammar covers the documents the claims quantify over: objects, arrays,
strings without escapes, signed decimal numbers without exponents, `true`,
`false`, `null`. -/
def parseJsonVal : Nat → List Char → Option (Json × List Char)
  | 0, _ => none
  | f + 1, cs =>
    match skipWs cs with
    | 'n' :: 'u' :: 'l' :: 'l' :: rest => some (.null, rest)
    | 't' :: 'r' :: 'u' :: 'e' :: rest => some (.bool true, rest)
    | 'f' :: 'a' :: 'l' :: 's' :: 'e' :: rest => some (.bool false, rest)
    | '"' :: rest => (parseStringBody rest).map (fun p => (.str p.1, p.2))
    | '[' :: rest =>
        (match skipWs rest with
         | ']' :: rest2 => some (.arr [], rest2)
         | _ => (parseJsonItems f rest).map (fun p => (.arr p.1, p.2)))
    | '\x7b' :: rest =>
        -- JS objects cannot hold a key twice: a repeated key in the source
        -- text overwrites the earlier value in place, which is exactly
        -- `objInsert` folded over the parsed field list.
        (match skipWs rest with
         | '\x7d' :: rest2 => some (.obj [], rest2)
         | _ => (parseJsonFields f rest).map
             (fun p => (.obj (p.1.foldl (fun acc q => objInsert acc q.1 q.2) []), p.2)))
    | '-' :: rest => (parseUnsignedDec rest).map (fun p => (.num (jnNeg p.1), p.2))
    | c :: rest =>
        if c.isDigit then (parseUnsignedDec (c :: rest)).map (fun p => (.num p.1, p.2))
        else none
    | [] => none

/-- Comma-separated array items up to the closing bracket. -/
def parseJsonItems : Nat → List Char → Option (List Json × List Char)
  | 0, _ => none
  | f + 1, cs =>
    match parseJsonVal f cs with
    | none => none
    | some (v, rest) =>
      match skipWs rest with
      | ',' :: rest2 => (parseJsonItems f rest2).map (fun p => (v :: p.1, p.2))
      | ']' :: rest2 => some ([v], rest2)
      | _ => none

/-- Comma-separated `"key": value` fields up to the closing brace. -/
def parseJsonFields : Nat → List Char → Option (List (String × Json) × List Char)
  | 0, _ => none
  | f + 1, cs =>
    match skipWs cs with
    | '"' :: rest =>
      match parseStringBody rest with
      | none => none
      | some (k, rest2) =>
        match skipWs rest2 with
        | ':' :: rest3 =>
          match parseJsonVal f rest3 with
          | none => none
          | some (v, rest4) =>
            match skipWs rest4 with
            | ',' :: rest5 => (parseJsonFields f rest5).map (fun p => ((k, v) :: p.1, p.2))
            | '\x7d' :: rest5 => some ([(k, v)], rest5)
            | _ => none
        | _ => none
    | _ => none

end

/-- `JSON.parse` on the raw editor text: `none` models a thrown
`SyntaxError`.  The fuel `s.length + 1` suffices because every recursive
step consumes at least one character. -/
def Json.parse (s : String) : Option Json :=
  match parseJsonVal (s.length + 1) s.data with
  | some (j, rest) => if (skipWs rest).isEmpty then some j else none
  | none => none

/-! ## Exports page: Excel-preview table editor (src/unnamed/part_001) -/

/-- The grid shown on the Excel tab: column headers and editable cell rows. -/
structure ExcelPreview where
  headers : List String
  rows : List (List Json)

/-- `hay.includes(needle)` on character lists. -/
def containsAux (n : List Char) : List Char → Bool
  | [] => n.isEmpty
  | c :: t => if n.isPrefixOf (c :: t) then true else containsAux n t

/-- JS `hay.includes(needle)`. -/
def strContainsSub (hay needle : String) : Bool :=
  containsAux needle.data hay.data

/-- JS `s.split(" ")` on a character list: split at every single space. -/
def splitSpaceAux (acc : List Char) : List Char → List String
  | [] => [String.mk acc.reverse]
  | c :: t =>
      if c = ' ' then String.mk acc.reverse :: splitSpaceAux [] t
      else splitSpaceAux (c :: acc) t

/-- JS `h.split(" ")`. -/
def splitSpace (s : String) : List String := splitSpaceAux [] s.data

/-- Month-effort columns of the resourcing plan: headers with exactly two
space-separated tokens (`h.split(" ").length === 2`). -/
def monthCols (headers : List String) : List String :=
  headers.filter (fun h => (splitSpace h).length = 2)

/-- `parseFloat(r[m] || 0) || 0`: the month-cell value as a number, with a
falsy cell defaulted to `0` and a `NaN` parse collapsed back to `0`. -/
def monthCellValue (r : Json) (m : String) : JNum :=
  (parseFloatJs (jsOr (objGet r m) (.num (jnOfInt 0)))).getD (jnOfInt 0)

/-- One step of the totals fold: the accumulated `(totalEfforts, totalCost)`
after a row.  `parseFloat(r["Rate/month"] || 0)` keeps `NaN` (`none`), which
then propagates through `totalCost += sumMonths * rate`. -/
def totalsStep (mcols : List String) (acc : JNum × Option JNum) (r : Json) :
    JNum × Option JNum :=
  let sumMonths : JNum :=
    mcols.foldl (fun a m => jnAdd a (monthCellValue r m)) (jnOfInt 0)
  let rate : Option JNum := parseFloatJs (jsOr (objGet r "Rate/month") (.num (jnOfInt 0)))
  (jnAdd acc.1 sumMonths, jnAddNaN acc.2 (jnMulNaN (some sumMonths) rate))

/-- The `(totalEfforts, totalCost)` accumulation over the rows of the
resourcing plan. -/
def resourcingTotals (headers : List String) (arr : List Json) :
    JNum × Option JNum :=
  arr.foldl (totalsStep (monthCols headers)) (jnOfInt 0, some (jnOfInt 0))

/-- `Number(x.toFixed(2))`: round to two decimals, ties away from zero, and
collapse to the canonical number (`Number("3.00") === 3`).  The modelled
drafts only produce values that are exact at two decimals. -/
def roundTo2 (q : JNum) : JNum :=
  jnReduce ⟨(if q.num < 0 then -1 else 1) * centsOf q, 100⟩

/-- The synthetic Total row for the resourcing plan: `Total` in the first
column, the rounded effort sum in the second-to-last column, the formatted
cost in the last column, empty cells elsewhere.  A `NaN` cost (non-numeric
rate) is represented by `Json.null`; it never arises in the drafts the
claims evaluate. -/
def totalRowOf (headers : List String) (totalEfforts : JNum)
    (totalCost : Option JNum) : List Json :=
  headers.mapIdx (fun i _ =>
    if (i : ℤ) = (headers.length : ℤ) - 2 then .num (roundTo2 totalEfforts)
    else if (i : ℤ) = (headers.length : ℤ) - 1 then
      match totalCost with
      | some c => formatCurrency (.num c)
      | none => .null
    else if i = 0 then .str "Total" else .str "")

/-- The Excel-preview effect's array-section branch: headers are the keys of
the first row, cells of rate/cost columns are passed through
`formatCurrency`, and for `resourcing_plan` the computed Total row is pushed
after the data rows.  An empty array and a non-object first row yield the
empty grid; a first row that is JS `null` (where the source's `Object.keys`
would throw) or an array (whose `Object.keys` are its indices) is not
modelled further, as no scope section holds such rows. -/
def buildArraySectionPreview (sectionName : String) (arr : List Json) :
    ExcelPreview :=
  match arr with
  | [] => ⟨[], []⟩
  | r0 :: _ =>
    match r0 with
    | .obj fs =>
      let headers := fs.map Prod.fst
      let rows := arr.map (fun r =>
        headers.map (fun h =>
          if strContainsSub (strLower h) "rate" || strContainsSub (strLower h) "cost" then
            formatCurrency (objGet r h)
          else objGet r h))
      if sectionName = "resourcing_plan" then
        let t := resourcingTotals headers arr
        ⟨headers, rows ++ [totalRowOf headers t.1 t.2]⟩
      else ⟨headers, rows⟩
    | _ => ⟨[], []⟩

/-- The Excel-preview effect for a selected section: the overview map renders
as a two-column Field/Value grid; an array section renders through
`buildArraySectionPreview`; anything else leaves the empty grid. -/
def buildExcelPreview (sectionName : String) (draft : Json) : ExcelPreview :=
  if sectionName = "overview" then
    match objGet draft "overview" with
    | .obj fs => ⟨["Field", "Value"], fs.map (fun p => [.str p.1, p.2])⟩
    | _ => ⟨["Field", "Value"], []⟩
  else
    match objGet draft sectionName with
    | .arr a => buildArraySectionPreview sectionName a
    | _ => ⟨[], []⟩

/-- The cell-edit handler on the Excel tab: `newRows[i][j] = value` on a copy
of the current rows (the synthetic Total row, being part of `rows`, is
copied along). -/
def editCell (rows : List (List Json)) (i j : Nat) (value : String) :
    List (List Json) :=
  rows.set i ((rows.getD i []).set j (.str value))

/-- The overview write-back inside `updateParsedDraft`: each `[k, v]` row
with a truthy key becomes a property (`newOverview[k] = v`), so blank-keyed
rows are dropped and a repeated key overwrites in place.  Keys are the
strings produced by the Field inputs; `jsKeyString` coerces the modelled
scalar cells the way JS property keys would. -/
def jsKeyString : Json → String
  | .str s => s
  | .num q => qToString q
  | .bool b => cond b "true" "false"
  | .null => "null"
  | .arr _ => ""
  | .obj _ => ""

/-- One `newRows.forEach(([k, v]) => ...)` step of the overview write-back. -/
def ovStep (acc : List (String × Json)) (row : List Json) :
    List (String × Json) :=
  let k := row.getD 0 .null
  let v := row.getD 1 .null
  if jsTruthy k then objInsert acc (jsKeyString k) v else acc

/-- Folds the edited overview rows back into an object. -/
def overviewFromRows (newRows : List (List Json)) : List (String × Json) :=
  newRows.foldl ovStep []

/-- `updateParsedDraft` from the Exports page, as the new draft object it
passes to `setJsonText(JSON.stringify(newDraft, null, 2))` (see
`pageStringify`).  The overview section is rebuilt from Field/Value rows;
any other section becomes the array of row objects rebuilt from the current
headers (`headers.reduce((obj, h, idx) => obj[h] = row[idx])`). -/
def updateParsedDraft (parsedDraft : Json) (headers : List String)
    (sectionName : String) (newRows : List (List Json)) : Json :=
  match parsedDraft with
  | .obj fs =>
    if sectionName = "overview" then
      .obj (objInsert fs "overview" (.obj (overviewFromRows newRows)))
    else
      let rowObj := fun (row : List Json) =>
        .obj ((headers.mapIdx (fun idx h => (h, row.getD idx .null))) :
          List (String × Json))
      .obj (objInsert fs sectionName (.arr (newRows.map rowObj)))
  | _ => parsedDraft

/-! ## Exports page: finalized-flag reconciliation (C2) -/

/-- The state read and written by the edit-detection effect: the finalized
flag, the one-shot suppression flag set by `handleFinalize`, and
`prevJsonRef.current`. -/
structure EditDetectState where
  isFinalized : Bool
  justFinalized : Bool
  prevJson : String
deriving DecidableEq

/-- One run of the edit-detection effect for the current editor text: revert
`isFinalized` when the text changed while finalized — unless `justFinalized`
suppresses it — then record the text and clear the suppression flag. -/
def editDetectEffect (jsonText : String) (s : EditDetectState) :
    EditDetectState :=
  let isFin :=
    if s.isFinalized ∧ s.prevJson ≠ "" ∧ s.prevJson ≠ jsonText ∧ ¬s.justFinalized
    then false else s.isFinalized
  { isFinalized := isFin
    justFinalized := if s.justFinalized then false else s.justFinalized
    prevJson := jsonText }

/-! ## Exports page: PDF preview cache (C4) -/

/-- A binary payload: its byte count and declared MIME type; `payload`
distinguishes otherwise identical blobs. -/
structure Blob where
  size : Nat
  type : String
  payload : String
deriving DecidableEq

/-- The PDF-preview slice of the page state: the raw editor text, the cached
blob and its content key, and the object URL currently shown (modelled by
the blob it points to). -/
structure PdfCacheState where
  jsonText : String
  cachedPdfBlob : Option Blob
  lastPdfKey : String
  previewPdfUrl : Option Blob
deriving DecidableEq

/-- The clear-cached-PDF effect, run on every change of `jsonText`: both the
cached blob and its key are discarded and the preview URL is reset. -/
def clearCachedPdfEffect (s : PdfCacheState) : PdfCacheState :=
  { s with cachedPdfBlob := none, lastPdfKey := "", previewPdfUrl := none }

/-- A user edit of the editor text: `setJsonText` followed by the
clear-cached-PDF effect it triggers. -/
def setJsonTextEdit (t : String) (s : PdfCacheState) : PdfCacheState :=
  clearCachedPdfEffect { s with jsonText := t }

/-- One run of the PDF-preview effect with the PDF tab active.  `fetch` is
the outcome the backend call would produce if issued.  Returns the next
state and whether a fetch was actually issued.  On a key match with a
cached, non-empty, correctly typed blob the cached blob is reused without a
fetch; otherwise the fetch runs and a valid blob is cached under the current
key. -/
def pdfPreviewEffect (fetch : Except Unit Blob) (s : PdfCacheState) :
    PdfCacheState × Bool :=
  match Json.parse s.jsonText with
  | none => (s, false)
  | some pd =>
    let currentKey := pd.stringify
    if s.lastPdfKey = currentKey ∧ s.cachedPdfBlob ≠ none then
      match s.cachedPdfBlob with
      | some cb =>
        if cb.size > 0 ∧ cb.type = "application/pdf" then
          ({ s with previewPdfUrl := some cb }, false)
        else (s, false)
      | none => (s, false)
    else
      match fetch with
      | .error _ => (s, true)
      | .ok blob =>
        if blob.size = 0 ∨ blob.type ≠ "application/pdf" then (s, true)
        else
          ({ s with cachedPdfBlob := some blob, lastPdfKey := currentKey,
                    previewPdfUrl := some blob }, true)

/-! ## Download manager (src/unnamed/part_001, src/unnamed/part_000) -/

/-- A user-visible notification, by severity class and message. -/
inductive Toast where
  | success (msg : String)
  | error (msg : String)
  | info (msg : String)
deriving DecidableEq

/-- Per-format download state as kept in `downloadState[key]`.  The live
`AbortController` reference is reduced to whether one is held. -/
structure DlState where
  loading : Bool
  progress : Nat
  hasController : Bool
deriving DecidableEq

/-- `resetDownload`: back to idle with zero progress and no controller. -/
def idleDlState : DlState := ⟨false, 0, false⟩

/-- `finishDownload`: loading off, progress pinned to 100, controller
dropped. -/
def finishedDlState : DlState := ⟨false, 100, false⟩

/-- What a single-format download run leaves behind: the download slot's
state, the file saved through the anchor click (if any), and the
notification raised. -/
structure DlOutcome where
  state : DlState
  savedFile : Option String
  toast : Toast
deriving DecidableEq

/-- The catch block of `downloadFile`: the distinct cancelled notification
when the controller was aborted, the failure notification otherwise; either
way the slot is reset and nothing is saved. -/
def downloadFileCatch (defaultName : String) (aborted : Bool) : DlOutcome :=
  { state := idleDlState
    savedFile := none
    toast :=
      if aborted then .info (defaultName ++ " download cancelled")
      else .error ("Failed to download " ++ defaultName) }

/-- `downloadFile` from the Exports page.  `fetch` is the settled outcome of
`fetchFn`; `aborted` is `controller.signal.aborted` as the catch block would
observe it.  A resolved, non-empty blob is saved under its `safeFileName`
and the success notification fires — the success path never consults the
abort flag, so a fetch that completes despite a cancel click still saves.
An empty blob or a rejection lands in the catch block. -/
def downloadFile (defaultName ext : String) (fetch : Except String Blob)
    (aborted : Bool) : DlOutcome :=
  match fetch with
  | .ok blob =>
      if blob.size = 0 then downloadFileCatch defaultName aborted
      else
        { state := finishedDlState
          savedFile := some (safeFileName defaultName ext)
          toast := .success (safeFileName defaultName ext ++ " downloaded") }
  | .error _ => downloadFileCatch defaultName aborted

/-- The options object `downloadFile` passes to its `fetchFn`: the fresh
controller's abort signal (by identity) and a progress callback. -/
structure ReqOptions where
  signal : Option Nat
  hasProgressHandler : Bool
deriving DecidableEq

/-- An HTTP request as configured at the axios layer: URL, response type and
whichever abort signal / progress callback made it into the config. -/
structure HttpRequest where
  url : String
  responseType : String
  signal : Option Nat
  hasProgressHandler : Bool
deriving DecidableEq

/-- The GET issued by `fetchExportBlob(url)`: blob-typed, and — since
`fetchExportBlob` receives only the URL — carrying no abort signal and no
progress callback. -/
def fetchExportBlobRequest (url : String) : HttpRequest :=
  ⟨url, "blob", none, false⟩

/-- `exportApi.exportToExcel = async (projectId) => fetchExportBlob(...)`:
the declared parameter list has only the project id. -/
def exportToExcelRequest (projectId : String) : HttpRequest :=
  fetchExportBlobRequest ("/projects/" ++ projectId ++ "/export/excel")

/-- The fetch function `handleDownloadExcel` hands to `downloadFile`:
`(opts) => exportApi.exportToExcel(id, opts)`.  JS drops the extra `opts`
argument against `exportToExcel`'s one-parameter signature, so the issued
request is `exportToExcelRequest id` regardless of `opts`. -/
def handleDownloadExcelRequest (projectId : String) (_opts : ReqOptions) :
    HttpRequest :=
  exportToExcelRequest projectId

/-- A settled HTTP response at the export layer: declared content type, blob
body, and — when the body is a JSON error envelope — its parsed `detail`
field. -/
structure HttpResponse where
  contentType : String
  body : Blob
  errorDetail : Option String
deriving DecidableEq

/-- `fetchExportBlob`'s response handling: a JSON content type marks an error
envelope whose `detail` (or the fallback text) is thrown; any other content
type returns the body blob unexamined. -/
def fetchExportBlobHandle (res : HttpResponse) : Except String Blob :=
  if strContainsSub res.contentType "application/json" then
    .error (res.errorDetail.getD "Export failed")
  else .ok res.body

/-- A payload stored in the ZIP: the serialized JSON text or a binary blob. -/
inductive ZipData where
  | text (s : String)
  | blob (b : Blob)

/-- One archive member. -/
structure ZipEntry where
  name : String
  data : ZipData

/-- The generated archive: its filename and members in insertion order. -/
structure ZipFile where
  name : String
  entries : List ZipEntry

/-- What a "download all" run leaves behind. -/
structure AllOutcome where
  state : DlState
  savedZip : Option ZipFile
  toast : Toast

/-- The catch block of `handleDownloadAll`. -/
def downloadAllCatch (aborted : Bool) : AllOutcome :=
  { state := idleDlState
    savedZip := none
    toast :=
      if aborted then .info "Download all cancelled"
      else .error "Failed to download all files" }

/-- `handleDownloadAll`: sequentially await the JSON export, the Excel blob
and the PDF blob, adding each to the ZIP; only when all three resolved is
the archive generated and saved (named and membered via `safeFileName`).
Any rejection reaches the catch block: nothing is saved and the aggregate
slot resets to idle.  The blob bodies are added without any size or type
check. -/
def handleDownloadAll (projectName : String) (jsonFetch : Except String Json)
    (excelFetch pdfFetch : Except String Blob) (aborted : Bool) : AllOutcome :=
  match jsonFetch with
  | .error _ => downloadAllCatch aborted
  | .ok jsonData =>
    match excelFetch with
    | .error _ => downloadAllCatch aborted
    | .ok excelBlob =>
      match pdfFetch with
      | .error _ => downloadAllCatch aborted
      | .ok pdfBlob =>
        { state := finishedDlState
          savedZip := some
            { name := safeFileName projectName "zip"
              entries :=
                [ ⟨safeFileName projectName "json", .text (pageStringify jsonData)⟩,
                  ⟨safeFileName projectName "xlsx", .blob excelBlob⟩,
                  ⟨safeFileName projectName "pdf", .blob pdfBlob⟩ ] }
          toast := .success "All files downloaded" }

/-! ## Contexts (src/unnamed/part_004, src/frontend/src/contexts) -/

/-- A rejected HTTP call, reduced to the response status the error handlers
inspect (`err?.response?.status`). -/
structure HttpErr where
  status : Nat
deriving DecidableEq

/-- The HTTP client's resolution policy (axios defaults): a 2xx response
resolves with its body, every other status rejects with an error carrying
that status. -/
def axiosResolve (status : Nat) (body : Json) : Except HttpErr Json :=
  if 200 ≤ status ∧ status < 300 then .ok body else .error ⟨status⟩

/-- `exportApi.exportToJson`: `api.get(.../export/json)` returning
`res.data`. -/
def exportToJsonCall (status : Nat) (body : Json) : Except HttpErr Json :=
  axiosResolve status body

/-- Modelled from the spec: `projectApi.getFinalizedScope`, which the
ProjectContext (src/unnamed/part_004) calls but whose definition is not
among the provided sources.  Per the spec, the finalized-scope fetch
returns the persisted scope and an HTTP 400 signals "not yet finalized";
through the HTTP client a 2xx body resolves and any other status rejects
with that status. -/
def projectApiGetFinalizedScope (status : Nat) (body : Json) :
    Except HttpErr Json :=
  axiosResolve status body

/-- `getFinalizedScope` from the ProjectContext (src/unnamed/part_004):
resolve the fetched scope, mapping a falsy body to `null`; a rejection is
logged and rethrown unchanged. -/
def ProjectContext.getFinalizedScope (status : Nat) (body : Json) :
    Except HttpErr Json :=
  match projectApiGetFinalizedScope status body with
  | .ok d => if jsTruthy d then .ok d else .ok .null
  | .error e => .error e

/-- `getFinalizedScope` from the ExportContext
(src/frontend/src/contexts/ExportContext.jsx): `exportApi.exportToJson`
through `handleExport` (which records and rethrows), with an HTTP 400
rejection mapped to a resolved `null`. -/
def ExportContext.getFinalizedScope (status : Nat) (body : Json) :
    Except HttpErr Json :=
  match exportToJsonCall status body with
  | .ok d => .ok d
  | .error e => if e.status = 400 then .ok .null else .error e

/-- The editor state the load-project effect writes. -/
structure LoadUiState where
  jsonText : String
  isFinalized : Bool
deriving DecidableEq

/-- The load-project effect of the Exports page (src/unnamed/part_001) after
`getProject` succeeded: with the just-finalized guard down, the
finalized-scope fetch decides — data loads as finalized text, a `null`
falls back to the incoming draft (or clears the editor) in draft state,
and a rejection reaches the outer catch, which only logs and leaves the
state untouched. -/
def loadProjectEffect (incomingDraft : Option Json)
    (finalizedFetch : Except HttpErr Json) (justFinalized : Bool)
    (s : LoadUiState) : LoadUiState :=
  if s.isFinalized ∧ justFinalized then s
  else
    match finalizedFetch with
    | .ok d =>
        if jsTruthy d then { jsonText := pageStringify d, isFinalized := true }
        else
          match incomingDraft with
          | some dr => { jsonText := pageStringify dr, isFinalized := false }
          | none => { jsonText := "", isFinalized := false }
    | .error _ => s

/-- The ProjectContext's shared state touched by the modelled operations. -/
structure CtxState where
  projects : List Json
  lastPreviewScope : Option Json
  lastRedirectUrl : Option String

/-- `replaceById`: spread-merge `next` over the project whose `id` matches. -/
def replaceById (list : List Json) (id : Json) (next : Json) : List Json :=
  list.map (fun p => if jsStrictEq (objGet p "id") id then objMerge p next else p)

/-- `removeById`. -/
def removeById (list : List Json) (id : Json) : List Json :=
  list.filter (fun p => !(jsStrictEq (objGet p "id") id))

/-- `Promise.all` over the three preview calls: resolves with all three
values, rejects if any rejects (the members run with no mutual ordering;
which rejection is reported does not matter to any modelled caller). -/
def promiseAll3 {α β γ : Type} (a : Except HttpErr α) (b : Except HttpErr β)
    (c : Except HttpErr γ) : Except HttpErr (α × β × γ) :=
  match a with
  | .error e => .error e
  | .ok va =>
    match b with
    | .error e => .error e
    | .ok vb =>
      match c with
      | .error e => .error e
      | .ok vc => .ok (va, vb, vc)

/-- `createProject` from the ProjectContext (src/unnamed/part_004): create,
generate the scope, join the three previews under `Promise.all`, refresh
the full project — and only after all of that apply the shared-state
updates.  Each argument is the settled outcome of the corresponding
backend call; a rejection anywhere propagates with the state as it stood.
The operation's resolved value is reduced to the generated scope (the
claims concern the state updates and success/failure only). -/
def createProjectRun (rCreate rGen : Except HttpErr Json)
    (rPrevJson : Except HttpErr Json)
    (rPrevExcel rPrevPdf : Except HttpErr Blob)
    (rGetFull : Except HttpErr Json) (s : CtxState) :
    CtxState × Except HttpErr Json :=
  match rCreate with
  | .error e => (s, .error e)
  | .ok createData =>
    let projectId := objGet createData "id"
    match rGen with
    | .error e => (s, .error e)
    | .ok scope =>
      match promiseAll3 rPrevJson rPrevExcel rPrevPdf with
      | .error e => (s, .error e)
      | .ok (jsonPreview, _, _) =>
        match rGetFull with
        | .error e => (s, .error e)
        | .ok fullProject =>
          let s1 := { s with
            projects := fullProject :: removeById s.projects projectId }
          ({ s1 with
              lastPreviewScope := some (jsOr jsonPreview scope)
              lastRedirectUrl := some ("/exports/" ++ jsKeyString projectId) },
            .ok scope)

/-- `regenerateScope` from the ProjectContext (src/unnamed/part_004): prefer
the finalized scope from `exportToJson`, treating a 400 rejection as "fall
back to the passed draft or `\x7b\x7d`" and any other rejection as failure;
then join the three previews, and only on success set `lastPreviewScope`
to the JSON preview (or `null` when it is falsy). -/
def regenerateScopeRun (rExportJson : Except HttpErr Json)
    (draftScope : Option Json)
    (rPrevJson : Except HttpErr Json)
    (rPrevExcel rPrevPdf : Except HttpErr Blob) (s : CtxState) :
    CtxState × Except HttpErr Json :=
  let scopeRes :=
    match rExportJson with
    | .ok d => Except.ok d
    | .error e =>
        if e.status = 400 then .ok (jsOr (draftScope.getD .null) (.obj []))
        else .error e
  match scopeRes with
  | .error e => (s, .error e)
  | .ok _scopeToUse =>
    match promiseAll3 rPrevJson rPrevExcel rPrevPdf with
    | .error e => (s, .error e)
    | .ok (jsonPreview, _, _) =>
      ({ s with lastPreviewScope :=
          if jsTruthy jsonPreview then some jsonPreview else none },
        .ok jsonPreview)

/-- `finalizeScope` from the ProjectContext (src/unnamed/part_004): finalize
on the backend, refresh the project and update the projects list, and only
then join the three previews under `Promise.all` — so the list update
precedes the preview join.  On full success `lastPreviewScope` and
`lastRedirectUrl` are also updated.  The resolved value is reduced to the
finalized scope. -/
def finalizeScopeRun (id : Json) (scopeData : Json)
    (rFinalize rGetFull : Except HttpErr Json)
    (rPrevJson : Except HttpErr Json)
    (rPrevExcel rPrevPdf : Except HttpErr Blob) (s : CtxState) :
    CtxState × Except HttpErr Json :=
  match rFinalize with
  | .error e => (s, .error e)
  | .ok res =>
    let finalizedScope := jsOr (objGet res "scope") scopeData
    match rGetFull with
    | .error e => (s, .error e)
    | .ok fullProject =>
      let s1 := { s with projects := replaceById s.projects id fullProject }
      match promiseAll3 rPrevJson rPrevExcel rPrevPdf with
      | .error e => (s1, .error e)
      | .ok (jsonPreview, _, _) =>
        ({ s1 with
            lastPreviewScope := some (jsOr jsonPreview finalizedScope)
            lastRedirectUrl := some ("/exports/" ++ jsKeyString id) },
          .ok finalizedScope)

/-- The reconciliation flags right after a successful `handleFinalize`
(src/unnamed/part_001), which raises `justFinalized` and `isFinalized`
before the next edit-detection pass runs. -/
def afterFinalize (s : EditDetectState) : EditDetectState :=
  { s with isFinalized := true, justFinalized := true }

/-! ## Fixtures used by the concrete evaluations -/

/-- The single resourcing-plan row from the spec's worked example. -/
def rp5row : Json :=
  .obj [("Role", .str "Dev"), ("Rate/month", .num (jnOfInt 1000)),
        ("Month 1", .num (jnOfInt 2)), ("Month 2", .num (jnOfInt 1))]

/-- Its column headers (`Object.keys` of the first row). -/
def rpHeaders : List String := ["Role", "Rate/month", "Month 1", "Month 2"]

/-- A draft holding that resourcing plan plus one untouched field. -/
def rpDraft : Json :=
  .obj [("resourcing_plan", .arr [rp5row]), ("notes", .str "keep")]

/-- Two editor texts that differ only in whitespace. -/
def t1c : String := "\x7b\"a\": 1\x7d"

/-- `t1c` with one extra space. -/
def t2c : String := "\x7b\"a\":  1\x7d"

/-- A valid rendered PDF blob. -/
def pdfBlob1 : Blob := ⟨5, "application/pdf", "P1"⟩

/-- A second, distinct valid PDF blob. -/
def pdfBlob2 : Blob := ⟨6, "application/pdf", "P2"⟩

/-- The PDF-cache slice of the page state right after the initial clear. -/
def pdfState0 : PdfCacheState := ⟨t1c, none, "", none⟩

/-- The xlsx MIME type the backend declares on spreadsheet exports. -/
def sheetType : String :=
  "application/vnd.openxmlformats-officedocument.spreadsheetml.sheet"

/-- A zero-byte spreadsheet response body. -/
def emptyExcelBlob : Blob := ⟨0, sheetType, ""⟩

/-- A valid PDF export body. -/
def pdfOkBlob : Blob := ⟨9, "application/pdf", "P"⟩

/-- A valid spreadsheet export body. -/
def excelSheetBlob : Blob := ⟨2048, sheetType, "X"⟩

/-- A project record as held in the ProjectContext list. -/
def projOld : Json := .obj [("id", .num (jnOfInt 7)), ("name", .str "Old Scope")]

/-- The refreshed record the backend returns for the same project. -/
def projNew : Json := .obj [("id", .num (jnOfInt 7)), ("name", .str "New Scope")]

/-- A context state holding the single stale project. -/
def ctx0 : CtxState := ⟨[projOld], none, none⟩

/-- A scope payload for finalize calls. -/
def scope0 : Json := .obj [("overview", .obj [])]

/-! ## Association-object lemmas (overview write-back) -/

/-- Lookup in the overview association object. -/
def ovLookup (k : String) (o : List (String × Json)) : Option Json :=
  (o.find? (fun p => p.1 == k)).map Prod.snd

theorem ovLookup_cons (a : String) (b : Json) (t : List (String × Json)) (k : String) :
    ovLookup k ((a, b) :: t) = if a = k then some b else ovLookup k t := by
  by_cases h : a = k <;> simp [ovLookup, List.find?_cons, h]

theorem ovLookup_objInsert_self (o : List (String × Json)) (k : String) (v : Json) :
    ovLookup k (objInsert o k v) = some v := by
  induction o with
  | nil => simp [objInsert, ovLookup_cons]
  | cons p t ih =>
    obtain ⟨a, b⟩ := p
    by_cases hk : a = k
    · subst hk; simp [objInsert, ovLookup_cons]
    · simp [objInsert, hk, ovLookup_cons, ih]

theorem ovLookup_objInsert_ne (o : List (String × Json)) (k k2 : String) (v : Json)
    (h : k2 ≠ k) : ovLookup k2 (objInsert o k v) = ovLookup k2 o := by
  induction o with
  | nil => simp [objInsert, ovLookup_cons, Ne.symm h]
  | cons p t ih =>
    obtain ⟨a, b⟩ := p
    by_cases hk : a = k
    · subst hk; simp [objInsert, ovLookup_cons, Ne.symm h]
    · simp [objInsert, hk, ovLookup_cons, ih]

theorem objInsert_keys (o : List (String × Json)) (k : String) (v : Json) :
    (objInsert o k v).map Prod.fst =
      if k ∈ o.map Prod.fst then o.map Prod.fst else o.map Prod.fst ++ [k] := by
  induction o with
  | nil => simp [objInsert]
  | cons p t ih =>
    obtain ⟨a, b⟩ := p
    by_cases hk : a = k
    · subst hk; simp [objInsert]
    · have hk2 : ¬k = a := fun hh => hk hh.symm
      by_cases hm : k ∈ t.map Prod.fst <;>
        simp [objInsert, hk, ih, hm, hk2]

theorem objInsert_nodup (o : List (String × Json)) (k : String) (v : Json)
    (h : (o.map Prod.fst).Nodup) : ((objInsert o k v).map Prod.fst).Nodup := by
  rw [objInsert_keys]
  by_cases hm : k ∈ o.map Prod.fst <;>
    simp [hm, h, List.nodup_append, List.nodup_cons]

theorem objInsert_fst_ne (o : List (String × Json)) (k : String) (v : Json)
    (ho : ∀ p ∈ o, p.1 ≠ "") (hk : k ≠ "") : ∀ p ∈ objInsert o k v, p.1 ≠ "" := by
  induction o with
  | nil => simpa [objInsert] using hk
  | cons p t ih =>
    obtain ⟨a, b⟩ := p
    by_cases hka : a = k
    · subst hka
      intro q hq
      rcases List.mem_cons.mp (by simpa [objInsert] using hq) with h1 | h1
      · subst h1; exact fun hh => hk (by simpa using hh)
      · exact ho q (List.mem_cons_of_mem _ h1)
    · intro q hq
      rcases List.mem_cons.mp (by simpa [objInsert, hka] using hq) with h1 | h1
      · subst h1; exact ho (a, b) (List.mem_cons_self _ _)
      · exact ih (fun r hr => ho r (List.mem_cons_of_mem _ hr)) q h1

/-- The overview write-back rows produced by a Field/Value grid whose Field
cells are the strings of `rows`. -/
def strRows (rows : List (String × Json)) : List (List Json) :=
  rows.map (fun p => [Json.str p.1, p.2])

theorem ovStep_str (acc : List (String × Json)) (k : String) (v : Json) :
    ovStep acc [Json.str k, v] = if k = "" then acc else objInsert acc k v := by
  by_cases h : k = "" <;> simp [ovStep, jsTruthy, jsKeyString, h]

theorem overviewRows_inv (rows : List (String × Json)) :
    ∀ acc : List (String × Json), (acc.map Prod.fst).Nodup → (∀ p ∈ acc, p.1 ≠ "") →
      (((strRows rows).foldl ovStep acc).map Prod.fst).Nodup ∧
        (∀ p ∈ (strRows rows).foldl ovStep acc, p.1 ≠ "") := by
  induction rows with
  | nil => intro acc h1 h2; exact ⟨h1, h2⟩
  | cons r t ih =>
    intro acc h1 h2
    simp only [strRows, List.map_cons, List.foldl_cons, ovStep_str]
    by_cases hr : r.1 = ""
    · simpa [hr, strRows] using ih acc h1 h2
    · simpa [hr, strRows] using
        ih (objInsert acc r.1 r.2) (objInsert_nodup _ _ _ h1)
          (objInsert_fst_ne _ _ _ h2 hr)

theorem overviewRows_lookup (rows : List (String × Json)) (k : String) :
    ovLookup k (overviewFromRows (strRows rows)) =
      ((rows.filter (fun p => p.1 == k && p.1 != "")).getLast?).map Prod.snd := by
  induction rows using List.reverseRecOn with
  | nil => simp [overviewFromRows, strRows, ovLookup]
  | append_singleton l p ih =>
    have hmap : strRows (l ++ [p]) = strRows l ++ [[Json.str p.1, p.2]] := by
      simp [strRows]
    unfold overviewFromRows at ih ⊢
    rw [hmap, List.foldl_append, List.foldl_cons, List.foldl_nil, ovStep_str,
      List.filter_append]
    by_cases hp : p.1 = ""
    · simp [hp, ih]
    · by_cases hk : p.1 = k
      · subst hk
        have hfilt : List.filter (fun q => q.1 == p.1 && q.1 != "") [p] = [p] := by
          simp [hp]
        rw [if_neg hp, ovLookup_objInsert_self, hfilt, List.getLast?_concat]
        rfl
      · have hfilt : List.filter (fun q => q.1 == k && q.1 != "") [p] = [] := by
          simp [hk]
        rw [if_neg hp, ovLookup_objInsert_ne _ _ _ _ (fun hh => hk hh.symm), hfilt,
          List.append_nil, ih]

theorem overviewRows_blank (rs : List (List Json)) :
    overviewFromRows (rs ++ [[Json.str "", Json.str ""]]) = overviewFromRows rs := by
  unfold overviewFromRows
  rw [List.foldl_append, List.foldl_cons, List.foldl_nil, ovStep_str]
  simp

/-! ## Totals-fold lemmas (resourcing plan) -/

/-- The month-effort sum of one row over the month columns. -/
def monthCellSumRow (hdrs : List String) (r : Json) : JNum :=
  (monthCols hdrs).foldl (fun a m => jnAdd a (monthCellValue r m)) (jnOfInt 0)

/-- The parsed `Rate/month` cell of a row (`none` is `NaN`). -/
def rateOf (r : Json) : Option JNum :=
  parseFloatJs (jsOr (objGet r "Rate/month") (.num (jnOfInt 0)))

theorem jnAdd_ofInt (a b : ℤ) : jnAdd (jnOfInt a) (jnOfInt b) = jnOfInt (a + b) := by
  simp [jnAdd, jnOfInt]

theorem resourcingTotals_fst (hdrs : List String) (arr : List Json) :
    (resourcingTotals hdrs arr).1 =
      arr.foldl (fun a r => jnAdd a (monthCellSumRow hdrs r)) (jnOfInt 0) := by
  suffices h : ∀ acc : JNum × Option JNum,
      (arr.foldl (totalsStep (monthCols hdrs)) acc).1 =
        arr.foldl (fun a r => jnAdd a (monthCellSumRow hdrs r)) acc.1 from h _
  induction arr with
  | nil => intro acc; rfl
  | cons r t ih =>
    intro acc
    simp only [List.foldl_cons, ih]
    rfl

theorem resourcingTotals_snd (hdrs : List String) (arr : List Json) :
    (resourcingTotals hdrs arr).2 =
      arr.foldl
        (fun c r => jnAddNaN c (jnMulNaN (some (monthCellSumRow hdrs r)) (rateOf r)))
        (some (jnOfInt 0)) := by
  suffices h : ∀ acc : JNum × Option JNum,
      (arr.foldl (totalsStep (monthCols hdrs)) acc).2 =
        arr.foldl
          (fun c r => jnAddNaN c (jnMulNaN (some (monthCellSumRow hdrs r)) (rateOf r)))
          acc.2 from h _
  induction arr with
  | nil => intro acc; rfl
  | cons r t ih =>
    intro acc
    simp only [List.foldl_cons, ih]
    rfl

theorem jnAdd_foldl_intSum (ns : List ℤ) :
    (ns.map jnOfInt).foldl jnAdd (jnOfInt 0) = jnOfInt ns.sum := by
  suffices h : ∀ a : ℤ, (ns.map jnOfInt).foldl jnAdd (jnOfInt a) = jnOfInt (a + ns.sum) by
    simpa using h 0
  induction ns with
  | nil => intro a; simp [jnOfInt]
  | cons n t ih =>
    intro a
    simp only [List.map_cons, List.foldl_cons, jnAdd_ofInt, ih, List.sum_cons]
    ring_nf

/-! ## Claims -/

/-- Claim C1.  Editing a single cell of the resourcing-plan table through the
table editor does not change exactly that cell: the write-back passes the
whole `excelPreview.rows` — including the pushed synthetic Total row — to
`updateParsedDraft`, so the serialized draft gains the Total row as a data
row, and every rate/cost cell is written back as its `formatCurrency`
string instead of the original number.  This closed evaluation shows the
re-serialized draft after editing the `Role` cell of the single data row to
`"Dev X"`: `resourcing_plan` now holds two rows (the second is the Total
row) and `Rate/month` has become the string `"$1,000.00"`. -/
theorem c1_total_row_written_back :
    updateParsedDraft rpDraft rpHeaders "resourcing_plan"
        (editCell (buildExcelPreview "resourcing_plan" rpDraft).rows 0 0 "Dev X") =
      .obj [("resourcing_plan", .arr
              [.obj [("Role", .str "Dev X"), ("Rate/month", .str "$1,000.00"),
                     ("Month 1", .num (jnOfInt 2)), ("Month 2", .num (jnOfInt 1))],
               .obj [("Role", .str "Total"), ("Rate/month", .str ""),
                     ("Month 1", .num (jnOfInt 3)), ("Month 2", .str "$3,000.00")]]),
            ("notes", .str "keep")] := rfl

/-- Claim C2.  After a successful finalize (`afterFinalize` raises
`isFinalized` and `justFinalized`), the next run of the edit-detection
effect does not revert `isFinalized` even though the text changed, and it
consumes the suppression flag; the run after that, on a genuine further
edit in the finalized state, does revert the flag to draft. -/
theorem c2_finalize_guard_one_pass (s : EditDetectState) (t t2 : String)
    (h1 : t ≠ "") (h2 : t2 ≠ t) :
    (editDetectEffect t (afterFinalize s)).isFinalized = true
    ∧ (editDetectEffect t (afterFinalize s)).justFinalized = false
    ∧ (editDetectEffect t2 (editDetectEffect t (afterFinalize s))).isFinalized = false := by
  have h3 : ¬t = t2 := fun hh => h2 hh.symm
  refine ⟨?_, ?_, ?_⟩ <;> simp [editDetectEffect, afterFinalize, h1, h3]

/-- Witness for C2 at concrete texts. -/
theorem c2_finalize_guard_one_pass_witness :
    ("y" : String) ≠ "" ∧ ("z" : String) ≠ "y" ∧
      ((editDetectEffect "y" (afterFinalize ⟨false, false, "x"⟩)).isFinalized = true
      ∧ (editDetectEffect "y" (afterFinalize ⟨false, false, "x"⟩)).justFinalized = false
      ∧ (editDetectEffect "z"
            (editDetectEffect "y" (afterFinalize ⟨false, false, "x"⟩))).isFinalized = false) :=
  ⟨by decide, by decide,
    c2_finalize_guard_one_pass ⟨false, false, "x"⟩ "y" "z" (by decide) (by decide)⟩

/-- Counterexample to C3 as stated: the `getFinalizedScope` of the
ProjectContext — the one the export page's load pass calls — does not
resolve to `null` on an HTTP 400; it rethrows the rejection. -/
theorem c3_counterexample_400_rethrown :
    ProjectContext.getFinalizedScope 400 Json.null = .error ⟨400⟩
    ∧ ProjectContext.getFinalizedScope 400 Json.null ≠ .ok Json.null :=
  ⟨rfl, fun h => Except.noConfusion h⟩

/-- Claim C3 as amended.  On an HTTP 400 the ExportContext's
`getFinalizedScope` resolves to `null`, while the ProjectContext's
rethrows the status-400 rejection; the export page's load effect catches
that rejection and leaves the editor state untouched, so a page that was in
draft state stays in draft state with no failure surfaced. -/
theorem c3_amended_400_resolution :
    (∀ body : Json, ExportContext.getFinalizedScope 400 body = .ok Json.null)
    ∧ (∀ body : Json, ProjectContext.getFinalizedScope 400 body = .error ⟨400⟩)
    ∧ (∀ (inc : Option Json) (e : HttpErr) (t : String),
        loadProjectEffect inc (.error e) false ⟨t, false⟩ = ⟨t, false⟩) :=
  ⟨fun _ => rfl, fun _ => rfl, fun _ _ _ => rfl⟩

/-- Counterexample to C4 as stated: two editor texts that differ only in
whitespace parse to the same draft, yet replacing one by the other clears
the cached PDF blob (the clear-on-change effect), and the next PDF-tab
render issues a fetch instead of reusing the cached artifact. -/
theorem c4_counterexample_whitespace_edit_invalidates :
    t1c ≠ t2c
    ∧ Json.parse t1c = Json.parse t2c
    ∧ (pdfPreviewEffect (.ok pdfBlob1) pdfState0).1.cachedPdfBlob = some pdfBlob1
    ∧ (setJsonTextEdit t2c (pdfPreviewEffect (.ok pdfBlob1) pdfState0).1).cachedPdfBlob = none
    ∧ (pdfPreviewEffect (.ok pdfBlob2)
        (setJsonTextEdit t2c (pdfPreviewEffect (.ok pdfBlob1) pdfState0).1)).2 = true :=
  ⟨by decide, rfl, rfl, rfl, rfl⟩

/-- Claim C4 as amended.  The cache key is the serialized parsed draft, but
every raw-text change — whitespace-only included — clears the cached blob
and key, so the next PDF-tab render after any edit fetches again; the
cached blob is reused (without a fetch) only by a render whose editor text
is unchanged since the blob was cached. -/
theorem c4_amended_cache_clearing :
    (∀ (t : String) (s : PdfCacheState),
      (setJsonTextEdit t s).cachedPdfBlob = none
      ∧ (setJsonTextEdit t s).lastPdfKey = ""
      ∧ (setJsonTextEdit t s).previewPdfUrl = none)
    ∧ (∀ (s : PdfCacheState) (f : Except Unit Blob) (pd : Json),
        Json.parse s.jsonText = some pd → s.cachedPdfBlob = none →
        (pdfPreviewEffect f s).2 = true)
    ∧ (∀ (s : PdfCacheState) (pd : Json) (b : Blob) (f2 : Except Unit Blob),
        Json.parse s.jsonText = some pd → s.cachedPdfBlob = none →
        b.size > 0 → b.type = "application/pdf" →
        (pdfPreviewEffect f2 (pdfPreviewEffect (.ok b) s).1).2 = false
        ∧ (pdfPreviewEffect f2 (pdfPreviewEffect (.ok b) s).1).1.previewPdfUrl = some b) := by
  refine ⟨fun t s => ⟨rfl, rfl, rfl⟩, ?_, ?_⟩
  · intro s f pd hparse hcached
    unfold pdfPreviewEffect
    rw [hparse]
    cases f with
    | error e => simp [hcached]
    | ok b =>
      by_cases hb : b.size = 0 ∨ b.type ≠ "application/pdf" <;> simp_all [hcached]
  · intro s pd b f2 hparse hcached hsz hty
    have hnz : ¬(b.size = 0 ∨ b.type ≠ "application/pdf") := by
      push_neg
      exact ⟨Nat.pos_iff_ne_zero.mp hsz, hty⟩
    have h1 : pdfPreviewEffect (.ok b) s =
        ({ s with cachedPdfBlob := some b, lastPdfKey := pd.stringify,
                  previewPdfUrl := some b }, true) := by
      unfold pdfPreviewEffect
      rw [hparse]
      simp [hcached, hnz]
    rw [h1]
    simp [pdfPreviewEffect, hparse, hsz, hty]

/-- Witness for the amended C4 at concrete inputs. -/
theorem c4_amended_cache_clearing_witness :
    Json.parse pdfState0.jsonText = some (Json.obj [("a", Json.num (jnOfInt 1))])
    ∧ pdfState0.cachedPdfBlob = none
    ∧ pdfBlob1.size > 0
    ∧ pdfBlob1.type = "application/pdf"
    ∧ ((pdfPreviewEffect (.ok pdfBlob2) (pdfPreviewEffect (.ok pdfBlob1) pdfState0).1).2 = false
       ∧ (pdfPreviewEffect (.ok pdfBlob2)
            (pdfPreviewEffect (.ok pdfBlob1) pdfState0).1).1.previewPdfUrl = some pdfBlob1) :=
  ⟨rfl, rfl, by decide, rfl,
    c4_amended_cache_clearing.2.2 pdfState0 (Json.obj [("a", Json.num (jnOfInt 1))]) pdfBlob1
      (.ok pdfBlob2) rfl rfl (by decide) rfl⟩

/-- Claim C5.  The totals accumulated for the resourcing plan decompose into
a per-row fold of the month-column sums (effort) and of month-sum times the
parsed `Rate/month` (cost); folding integer cells sums them exactly; and on
the spec's worked single-row example the rendered grid carries the Total
row with effort `3` and cost `"$3,000.00"`. -/
theorem c5_resourcing_totals :
    (∀ (hdrs : List String) (arr : List Json),
      (resourcingTotals hdrs arr).1 =
        arr.foldl (fun a r => jnAdd a (monthCellSumRow hdrs r)) (jnOfInt 0))
    ∧ (∀ (hdrs : List String) (arr : List Json),
        (resourcingTotals hdrs arr).2 =
          arr.foldl
            (fun c r => jnAddNaN c (jnMulNaN (some (monthCellSumRow hdrs r)) (rateOf r)))
            (some (jnOfInt 0)))
    ∧ (∀ ns : List ℤ, (ns.map jnOfInt).foldl jnAdd (jnOfInt 0) = jnOfInt ns.sum)
    ∧ buildArraySectionPreview "resourcing_plan" [rp5row] =
        ⟨rpHeaders,
          [[.str "Dev", .str "$1,000.00", .num (jnOfInt 2), .num (jnOfInt 1)],
           [.str "Total", .str "", .num (jnOfInt 3), .str "$3,000.00"]]⟩ :=
  ⟨resourcingTotals_fst, resourcingTotals_snd, jnAdd_foldl_intSum, rfl⟩

/-- Claim C6.  When all three fetches succeed, "download all" saves exactly
one archive named `safeFileName name "zip"` holding exactly the three
entries `<name>.json`, `<name>.xlsx`, `<name>.pdf`; if any single fetch
fails, nothing is saved and the aggregate slot resets to idle. -/
theorem c6_download_all_archive :
    (∀ (name : String) (j : Json) (e p : Blob) (ab : Bool),
      handleDownloadAll name (.ok j) (.ok e) (.ok p) ab =
        ⟨finishedDlState,
          some ⟨safeFileName name "zip",
            [⟨safeFileName name "json", .text (pageStringify j)⟩,
             ⟨safeFileName name "xlsx", .blob e⟩,
             ⟨safeFileName name "pdf", .blob p⟩]⟩,
          .success "All files downloaded"⟩)
    ∧ (∀ (name : String) (er : String) (e p : Except String Blob) (ab : Bool),
        handleDownloadAll name (.error er) e p ab = downloadAllCatch ab)
    ∧ (∀ (name : String) (j : Json) (er : String) (p : Except String Blob) (ab : Bool),
        handleDownloadAll name (.ok j) (.error er) p ab = downloadAllCatch ab)
    ∧ (∀ (name : String) (j : Json) (e : Blob) (er : String) (ab : Bool),
        handleDownloadAll name (.ok j) (.ok e) (.error er) ab = downloadAllCatch ab)
    ∧ (∀ ab : Bool, (downloadAllCatch ab).savedZip = none
        ∧ (downloadAllCatch ab).state = idleDlState) :=
  ⟨fun _ _ _ _ _ => rfl, fun _ _ _ _ _ => rfl, fun _ _ _ _ _ => rfl,
    fun _ _ _ _ _ => rfl, fun _ => ⟨rfl, rfl⟩⟩

/-- Counterexample to C7 as stated: a zero-byte spreadsheet response with a
correct binary content type passes the only validation (`fetchExportBlob`
checks only for a JSON error envelope), and "download all" archives it and
saves the ZIP with a success notification — a saved empty file rather than
a caught error. -/
theorem c7_counterexample_zero_byte_archived :
    emptyExcelBlob.size = 0
    ∧ fetchExportBlobHandle ⟨sheetType, emptyExcelBlob, none⟩ = .ok emptyExcelBlob
    ∧ handleDownloadAll "Proj" (.ok (.obj [])) (.ok emptyExcelBlob) (.ok pdfOkBlob) false =
        ⟨finishedDlState,
          some ⟨"proj.zip",
            [⟨"proj.json", .text (pageStringify (.obj []))⟩,
             ⟨"proj.xlsx", .blob emptyExcelBlob⟩,
             ⟨"proj.pdf", .blob pdfOkBlob⟩]⟩,
          .success "All files downloaded"⟩ :=
  ⟨rfl, rfl, rfl⟩

/-- Claim C7 as amended.  Single-format downloads treat a zero-byte blob as a
caught failure (nothing saved, failure/cancel notification), and any export
response whose content type is `application/json` raises its error
envelope; but "download all" performs no size check, so a zero-byte binary
blob is archived and the ZIP is saved, and content types other than JSON
are never validated on the download paths. -/
theorem c7_amended_payload_guards :
    (∀ (name ext ty pl : String) (ab : Bool),
      downloadFile name ext (.ok ⟨0, ty, pl⟩) ab = downloadFileCatch name ab)
    ∧ (∀ (name : String) (ab : Bool), (downloadFileCatch name ab).savedFile = none)
    ∧ (∀ name : String,
        (downloadFileCatch name false).toast = .error ("Failed to download " ++ name))
    ∧ (∀ (body : Blob) (d : String),
        fetchExportBlobHandle ⟨"application/json", body, some d⟩ = .error d)
    ∧ (∀ body : Blob,
        fetchExportBlobHandle ⟨"application/json", body, none⟩ = .error "Export failed")
    ∧ (∀ (name : String) (j : Json) (ty pl : String) (p : Blob) (ab : Bool),
        (handleDownloadAll name (.ok j) (.ok ⟨0, ty, pl⟩) (.ok p) ab).savedZip =
          some ⟨safeFileName name "zip",
            [⟨safeFileName name "json", .text (pageStringify j)⟩,
             ⟨safeFileName name "xlsx", .blob ⟨0, ty, pl⟩⟩,
             ⟨safeFileName name "pdf", .blob p⟩]⟩) :=
  ⟨fun _ _ _ _ _ => rfl, fun _ _ => rfl, fun _ => rfl, fun _ _ => rfl, fun _ => rfl,
    fun _ _ _ _ _ _ => rfl⟩

/-- Claim C8.  The abort signal a download creates never reaches the network
layer: the fetch function `handleDownloadExcel` passes to `downloadFile`
hands the options object to `exportApi.exportToExcel`, whose one-parameter
signature drops it, so the issued request carries no signal and no progress
handler.  Consequently a fetch that completes after the user pressed
Cancel still saves the file with a success notification (the success path
never consults the abort flag); the distinct cancelled notification and the
reset to idle are reachable only if the fetch itself rejects. -/
theorem c8_cancellation_not_wired :
    (handleDownloadExcelRequest "7" ⟨some 3, true⟩).signal = none
    ∧ (handleDownloadExcelRequest "7" ⟨some 3, true⟩).hasProgressHandler = false
    ∧ downloadFile "My Proj" "xlsx" (.ok excelSheetBlob) true =
        ⟨finishedDlState, some "my_proj.xlsx", .success "my_proj.xlsx downloaded"⟩
    ∧ downloadFile "My Proj" "xlsx" (.error "canceled") true =
        ⟨idleDlState, none, .info "My Proj download cancelled"⟩ :=
  ⟨rfl, rfl, rfl, rfl⟩

/-- Counterexample to C9 as stated: in `finalizeScope`, when the PDF preview
call fails the operation fails — but the projects list has already been
refreshed, so a downstream shared-state update was applied before all three
preview calls completed. -/
theorem c9_counterexample_finalize_list_update :
    finalizeScopeRun (.num (jnOfInt 7)) scope0 (.ok (.obj [])) (.ok projNew)
        (.ok (.obj [])) (.ok ⟨3, "x", "e"⟩) (.error ⟨500⟩) ctx0 =
      (⟨[.obj [("id", .num (jnOfInt 7)), ("name", .str "New Scope")]], none, none⟩,
        .error ⟨500⟩)
    ∧ ([Json.obj [("id", .num (jnOfInt 7)), ("name", .str "New Scope")]] ≠ ctx0.projects) := by
  constructor
  · rfl
  · intro h
    simp [ctx0, projOld] at h

/-- Claim C9 as amended.  In `createProject` and `regenerateScope` a failure
of any of the three preview calls leaves the shared state untouched; in
`finalizeScope` the projects-list refresh is applied before the preview
join, so a preview failure leaves the refreshed list in place while
`lastPreviewScope` and `lastRedirectUrl` stay un-updated, and only full
success applies all three updates. -/
theorem c9_amended_preview_gating :
    (∀ (rc rg : Except HttpErr Json) (e : HttpErr)
       (pe pp : Except HttpErr Blob) (gf : Except HttpErr Json) (s : CtxState),
      (createProjectRun rc rg (.error e) pe pp gf s).1 = s)
    ∧ (∀ (rc rg pj : Except HttpErr Json) (e : HttpErr)
         (pp : Except HttpErr Blob) (gf : Except HttpErr Json) (s : CtxState),
        (createProjectRun rc rg pj (.error e) pp gf s).1 = s)
    ∧ (∀ (rc rg pj : Except HttpErr Json) (pe : Except HttpErr Blob) (e : HttpErr)
         (gf : Except HttpErr Json) (s : CtxState),
        (createProjectRun rc rg pj pe (.error e) gf s).1 = s)
    ∧ (∀ (rej : Except HttpErr Json) (ds : Option Json) (e : HttpErr)
         (pe pp : Except HttpErr Blob) (s : CtxState),
        (regenerateScopeRun rej ds (.error e) pe pp s).1 = s)
    ∧ (∀ (rej pj : Except HttpErr Json) (ds : Option Json) (e : HttpErr)
         (pp : Except HttpErr Blob) (s : CtxState),
        (regenerateScopeRun rej ds pj (.error e) pp s).1 = s)
    ∧ (∀ (rej pj : Except HttpErr Json) (ds : Option Json) (pe : Except HttpErr Blob)
         (e : HttpErr) (s : CtxState),
        (regenerateScopeRun rej ds pj pe (.error e) s).1 = s)
    ∧ (∀ (id sd vf vgf : Json) (pj : Except HttpErr Json) (pe : Except HttpErr Blob)
         (e : HttpErr) (s : CtxState),
        (finalizeScopeRun id sd (.ok vf) (.ok vgf) pj pe (.error e) s).1 =
          { s with projects := replaceById s.projects id vgf })
    ∧ (∀ (id sd vf vgf vpj : Json) (ve vpp : Blob) (s : CtxState),
        (finalizeScopeRun id sd (.ok vf) (.ok vgf) (.ok vpj) (.ok ve) (.ok vpp) s).1 =
          { projects := replaceById s.projects id vgf
            lastPreviewScope := some (jsOr vpj (jsOr (objGet vf "scope") sd))
            lastRedirectUrl := some ("/exports/" ++ jsKeyString id) }) := by
  refine ⟨?_, ?_, ?_, ?_, ?_, ?_, ?_, ?_⟩
  · intro rc rg e pe pp gf s
    cases rc <;> cases rg <;> simp [createProjectRun, promiseAll3]
  · intro rc rg pj e pp gf s
    cases rc <;> cases rg <;> cases pj <;> simp [createProjectRun, promiseAll3]
  · intro rc rg pj pe e gf s
    cases rc <;> cases rg <;> cases pj <;> cases pe <;>
      simp [createProjectRun, promiseAll3]
  · intro rej ds e pe pp s
    cases rej with
    | ok d => simp [regenerateScopeRun, promiseAll3]
    | error e0 =>
      by_cases h : e0.status = 400 <;> simp [regenerateScopeRun, promiseAll3, h]
  · intro rej pj ds e pp s
    cases rej with
    | ok d => cases pj <;> simp [regenerateScopeRun, promiseAll3]
    | error e0 =>
      by_cases h : e0.status = 400 <;> cases pj <;>
        simp [regenerateScopeRun, promiseAll3, h]
  · intro rej pj ds pe e s
    cases rej with
    | ok d => cases pj <;> cases pe <;> simp [regenerateScopeRun, promiseAll3]
    | error e0 =>
      by_cases h : e0.status = 400 <;> cases pj <;> cases pe <;>
        simp [regenerateScopeRun, promiseAll3, h]
  · intro id sd vf vgf pj pe e s
    cases pj <;> cases pe <;> simp [finalizeScopeRun, promiseAll3]
  · intro id sd vf vgf vpj ve vpp s
    rfl

/-- Claim C10.  For every list of Field/Value rows written back from the
overview grid: the resulting overview object has pairwise-distinct,
non-empty keys; looking a key up yields the Value of the last row carrying
that non-empty Field (so a repeated Field's later Value wins and an empty
Field never surfaces); and appending a fresh blank row leaves the object
unchanged. -/
theorem c10_overview_write_back (rows : List (String × Json)) :
    ((overviewFromRows (strRows rows)).map Prod.fst).Nodup
    ∧ (∀ p ∈ overviewFromRows (strRows rows), p.1 ≠ "")
    ∧ (∀ k : String, ovLookup k (overviewFromRows (strRows rows)) =
        ((rows.filter (fun p => p.1 == k && p.1 != "")).getLast?).map Prod.snd)
    ∧ overviewFromRows (strRows rows ++ [[Json.str "", Json.str ""]]) =
        overviewFromRows (strRows rows) :=
  ⟨(overviewRows_inv rows [] (by simp) (by simp)).1,
    (overviewRows_inv rows [] (by simp) (by simp)).2,
    fun k => overviewRows_lookup rows k,
    overviewRows_blank (strRows rows)⟩

/-- Witness for C10 at a concrete row list with a duplicate and a blank
Field. -/
theorem c10_overview_write_back_witness :
    ((overviewFromRows (strRows
        [("a", Json.str "1"), ("", Json.str "x"), ("a", Json.str "2")])).map
          Prod.fst).Nodup
    ∧ (∀ p ∈ overviewFromRows (strRows
          [("a", Json.str "1"), ("", Json.str "x"), ("a", Json.str "2")]), p.1 ≠ "")
    ∧ (∀ k : String, ovLookup k (overviewFromRows (strRows
          [("a", Json.str "1"), ("", Json.str "x"), ("a", Json.str "2")])) =
        (([("a", Json.str "1"), ("", Json.str "x"), ("a", Json.str "2")].filter
            (fun p => p.1 == k && p.1 != "")).getLast?).map Prod.snd)
    ∧ overviewFromRows (strRows
          [("a", Json.str "1"), ("", Json.str "x"), ("a", Json.str "2")] ++
          [[Json.str "", Json.str ""]]) =
        overviewFromRows (strRows
          [("a", Json.str "1"), ("", Json.str "x"), ("a", Json.str "2")]) :=
  c10_overview_write_back [("a", Json.str "1"), ("", Json.str "x"), ("a", Json.str "2")]

end ScopingBot
